import Mathlib

/-!
# Verification of the usage-record parser

Shallow embedding of the two JavaScript implementations of `UsageParser`
(`src/usage_parser.js`, namespace `UP` below, and `src/unnamed/part_000`,
namespace `P0` below) over `List Char` strings, together with proofs of the
spec's testable properties.

JavaScript strings are modelled as `List Char` (`Str`).  JavaScript numbers
are modelled exactly (no float rounding) by `JSNum`: `NaN`, the two
infinities, and rational values.  A JavaScript value that may be `undefined`,
a string, or a number is modelled by `RawVal`.
-/

set_option maxRecDepth 10000

abbrev Str := List Char

/-- A JavaScript number: `NaN`, `Infinity`, `-Infinity`, or a finite value
(modelled exactly as a rational; the program only ever produces integers). -/
inductive JSNum : Type
  | nan : JSNum
  | inf : JSNum
  | neginf : JSNum
  | val (q : ℚ) : JSNum
deriving DecidableEq, Repr

/-- A raw field candidate handed to the normalizer: `undefined`, `null`
(the normalizer's own absent marker in its output records), a string, or a
number.  `null` must be distinguished from `undefined`: `isNaN(null)` is
`false` (`Number(null)` is `0`) while `isNaN(undefined)` is `true`. -/
inductive RawVal : Type
  | undefined : RawVal
  | jsNull : RawVal
  | str (s : Str) : RawVal
  | num (j : JSNum) : RawVal
deriving DecidableEq, Repr

/-- An argument of `parse` / `parseSingle`: either a string or a non-string
value without `indexOf`/`split` methods (null, undefined, a number, a
boolean, a plain object, ...). -/
inductive JSVal : Type
  | str (s : Str) : JSVal
  | nonstr : JSVal
deriving DecidableEq, Repr

/-- The argument of `parse`: a single value or an array of values. -/
inductive JSInput : Type
  | single (v : JSVal) : JSInput
  | batch (l : List JSVal) : JSInput
deriving DecidableEq, Repr

/-- The canonical output record (the JS object literal built by
`formatOutput`): every field independently nullable.  Numeric fields hold
a (non-`NaN`) JavaScript number, `dmcc` and `ip` hold strings. -/
structure UsageRecord : Type where
  id : Option JSNum
  dmcc : Option Str
  mnc : Option JSNum
  bytes_used : Option JSNum
  cellid : Option JSNum
  ip : Option Str
deriving DecidableEq, Repr

/-! ## Character classes

The regex character classes `[0-9]`, `[0-9a-f]`, hex digits (either case),
and `\w`, written as explicit decidable tables. -/

/-- The value of a decimal digit character (regex class `[0-9]`). -/
def digitVal? (c : Char) : Option ℕ :=
  if c = '0' then some 0 else if c = '1' then some 1 else
  if c = '2' then some 2 else if c = '3' then some 3 else
  if c = '4' then some 4 else if c = '5' then some 5 else
  if c = '6' then some 6 else if c = '7' then some 7 else
  if c = '8' then some 8 else if c = '9' then some 9 else none

/-- Membership in the regex class `[0-9]`. -/
def isDig (c : Char) : Bool := (digitVal? c).isSome

/-- The value of a lowercase hex digit (regex class `[0-9a-f]`). -/
def hexLowerVal? (c : Char) : Option ℕ :=
  if c = 'a' then some 10 else if c = 'b' then some 11 else
  if c = 'c' then some 12 else if c = 'd' then some 13 else
  if c = 'e' then some 14 else if c = 'f' then some 15 else digitVal? c

/-- Membership in the regex class `[0-9a-f]` (the Hex payload alphabet). -/
def isHexLower (c : Char) : Bool := (hexLowerVal? c).isSome

/-- The value of any hex digit, either case (as accepted by
`parseInt(s, 16)`). -/
def hexVal? (c : Char) : Option ℕ :=
  if c = 'A' then some 10 else if c = 'B' then some 11 else
  if c = 'C' then some 12 else if c = 'D' then some 13 else
  if c = 'E' then some 14 else if c = 'F' then some 15 else hexLowerVal? c

/-- A hex digit of either case. -/
def isHexDigit (c : Char) : Bool := (hexVal? c).isSome

/-- JavaScript whitespace, as trimmed by `Number()` and `parseInt`
(space, tab, line feed, carriage return, vertical tab, form feed,
no-break space, BOM). -/
def isWs (c : Char) : Bool :=
  c = ' ' || c = '\t' || c = '\n' || c = '\r' ||
  c = Char.ofNat 11 || c = Char.ofNat 12 || c = Char.ofNat 160 ||
  c = Char.ofNat 65279

/-- The regex word-character class `\w` = `[A-Za-z0-9_]`, used by the
word-boundary assertion `\b`. -/
def wordChar (c : Char) : Bool :=
  (('a' ≤ c && c ≤ 'z') || ('A' ≤ c && c ≤ 'Z') || isDig c || c = '_')

/-! ## Numeric values of digit strings -/

/-- Numeric value of a decimal digit string (non-digits count 0; only used
on validated digit strings). -/
def natVal (s : Str) : ℕ := s.foldl (fun a c => 10 * a + (digitVal? c).getD 0) 0

/-- Numeric value of a hex digit string (non-hex-digits count 0; only used
on validated hex strings). -/
def hexValue (s : Str) : ℕ := s.foldl (fun a c => 16 * a + (hexVal? c).getD 0) 0

/-- The decimal digit character for a value below 10. -/
def digitChar (n : ℕ) : Char := Char.ofNat (48 + n)

/-- The lowercase hex digit character for a value below 16. -/
def hexDigitChar (n : ℕ) : Char :=
  if n < 10 then digitChar n else Char.ofNat (87 + n)

/-- Fuel-driven decimal rendering of a natural number (most significant
digit first); structural recursion so that the kernel can evaluate it. -/
def natToStrGo : ℕ → ℕ → Str
  | _, 0 => []
  | n, fuel + 1 =>
    if n < 10 then [digitChar n]
    else natToStrGo (n / 10) fuel ++ [digitChar (n % 10)]

/-- Decimal rendering of a natural number, as produced by JavaScript string
coercion of a (small nonnegative integer) number. -/
def natToStr (n : ℕ) : Str := natToStrGo n (n + 1)

/-- Decimal rendering of an integer. -/
def intToStr (i : ℤ) : Str :=
  if i < 0 then '-' :: natToStr i.natAbs else natToStr i.natAbs

/-- Zero-padded lowercase hex rendering with a fixed digit count
(most significant first); renders `v mod 16^len`. -/
def natToHex : ℕ → ℕ → Str
  | 0, _ => []
  | len + 1, v => natToHex len (v / 16) ++ [hexDigitChar (v % 16)]

/-! ## The JavaScript `Number()` string coercion

`strToNumber` models `ToNumber` applied to a string: trim whitespace, empty
means 0, otherwise a signed decimal literal (with optional fraction and
exponent) or `Infinity`, or an unsigned `0x`/`0b`/`0o` radix literal; any
other shape is `NaN`.  Values are exact rationals (no float rounding). -/

/-- Trim JavaScript whitespace from both ends. -/
def trimWs (s : Str) : Str :=
  ((s.dropWhile isWs).reverse.dropWhile isWs).reverse

/-- Negate a JavaScript number. -/
def negJS : JSNum → JSNum
  | .nan => .nan
  | .inf => .neginf
  | .neginf => .inf
  | .val q => .val (-q)

/-- Parse the exponent part after `e`/`E`: optional sign and digits that
must consume the rest of the string; scale the mantissa by the power of 10. -/
def parseExpPart (m : ℚ) (r : Str) : JSNum :=
  let sgn : Bool := r.head? = some '-'
  let r2 : Str := if r.head? = some '-' || r.head? = some '+' then r.tail else r
  let ds := r2.takeWhile isDig
  let rest := r2.dropWhile isDig
  if ds = [] ∨ rest ≠ [] then .nan
  else if sgn then .val (m / (10 : ℚ) ^ natVal ds)
  else .val (m * (10 : ℚ) ^ natVal ds)

/-- Parse what follows the decimal point: fraction digits and an optional
exponent.  `ip` is the integer part's value, `hasInt` whether integer-part
digits were present (`.` alone is `NaN`). -/
def parseAfterDot (ip : ℕ) (hasInt : Bool) (r : Str) : JSNum :=
  let fs := r.takeWhile isDig
  let rest := r.dropWhile isDig
  if !hasInt && fs = [] then .nan
  else
    let m : ℚ := (ip : ℚ) + (natVal fs : ℚ) / (10 : ℚ) ^ fs.length
    if rest = [] then .val m
    else if rest.head? = some 'e' ∨ rest.head? = some 'E' then
      parseExpPart m rest.tail
    else .nan

/-- Parse an unsigned decimal literal: digits, optional `.` fraction,
optional exponent; the whole string must be consumed. -/
def parseDec (r : Str) : JSNum :=
  let ds := r.takeWhile isDig
  let rest := r.dropWhile isDig
  if rest = [] then (if ds = [] then .nan else .val (natVal ds))
  else if rest.head? = some '.' then parseAfterDot (natVal ds) (!ds.isEmpty) rest.tail
  else if rest.head? = some 'e' ∨ rest.head? = some 'E' then
    if ds = [] then .nan else parseExpPart (natVal ds) rest.tail
  else .nan

/-- The characters of the string `Infinity`. -/
def infChars : Str := ['I', 'n', 'f', 'i', 'n', 'i', 't', 'y']

/-- An unsigned decimal literal or `Infinity`. -/
def parseUnsignedDec (r : Str) : JSNum :=
  if r = infChars then .inf else parseDec r

/-- A whole-string radix literal with the given digit table. -/
def parseRadixWith (dv : Char → Option ℕ) (b : ℕ) (r : Str) : JSNum :=
  if r ≠ [] ∧ r.all (fun c => (dv c).isSome) then
    .val ((r.foldl (fun a c => b * a + (dv c).getD 0) 0 : ℕ) : ℚ)
  else .nan

/-- Binary digit table. -/
def bitVal? (c : Char) : Option ℕ :=
  if c = '0' then some 0 else if c = '1' then some 1 else none

/-- Octal digit table. -/
def octVal? (c : Char) : Option ℕ :=
  if c = '8' ∨ c = '9' then none else digitVal? c

/-- `ToNumber` on a string (the semantics of `Number(s)` and hence of
`isNaN(s)` on string arguments). -/
def strToNumber (s : Str) : JSNum :=
  let t := trimWs s
  if t = [] then .val 0
  else if t.head? = some '+' then parseUnsignedDec t.tail
  else if t.head? = some '-' then negJS (parseUnsignedDec t.tail)
  else if t.take 2 = ['0', 'x'] ∨ t.take 2 = ['0', 'X'] then
    parseRadixWith hexVal? 16 (t.drop 2)
  else if t.take 2 = ['0', 'b'] ∨ t.take 2 = ['0', 'B'] then
    parseRadixWith bitVal? 2 (t.drop 2)
  else if t.take 2 = ['0', 'o'] ∨ t.take 2 = ['0', 'O'] then
    parseRadixWith octVal? 8 (t.drop 2)
  else parseUnsignedDec t

/-- `isNaN(v)` for a raw candidate: `undefined` coerces to `NaN`, `null`
coerces to `0` (so `isNaN(null)` is `false`), a number is `NaN` only if it
is the `NaN` value, a string goes through `ToNumber`. -/
def jsIsNaN : RawVal → Bool
  | .undefined => true
  | .jsNull => false
  | .num j => j = .nan
  | .str s => strToNumber s = .nan

/-- `Number(v)` for a raw candidate (`Number(null)` is `0`). -/
def jsToNumber : RawVal → JSNum
  | .undefined => .nan
  | .jsNull => .val 0
  | .num j => j
  | .str s => strToNumber s

/-! ## `parseInt(s, 16)` -/

/-- Body of `parseInt(s, 16)` after sign handling: strip an optional
`0x`/`0X` prefix, then take the longest prefix of hex digits; `NaN` if
there is none. -/
def parseIntHexBody (r : Str) (neg : Bool) : JSNum :=
  let r2 := if r.take 2 = ['0', 'x'] ∨ r.take 2 = ['0', 'X'] then r.drop 2 else r
  let ds := r2.takeWhile isHexDigit
  if ds = [] then .nan
  else if neg then .val (-(hexValue ds : ℚ)) else .val ((hexValue ds : ℚ))

/-- `parseInt(s, 16)`: trim leading whitespace, optional sign, optional
`0x` prefix, longest hex-digit prefix (trailing garbage ignored). -/
def parseIntHex (s : Str) : JSNum :=
  let t := s.dropWhile isWs
  if t.head? = some '+' then parseIntHexBody t.tail false
  else if t.head? = some '-' then parseIntHexBody t.tail true
  else parseIntHexBody t false

/-- JavaScript string coercion of a number (template-literal interpolation).
The program only ever coerces the nonnegative integers produced by
`parseIntHex` on validated input; the non-integral arm is unreachable here
and rendered as an explicit num/den pair. -/
def jsNumToStr : JSNum → Str
  | .nan => ['N', 'a', 'N']
  | .inf => infChars
  | .neginf => '-' :: infChars
  | .val q => if q.den = 1 then intToStr q.num else intToStr q.num ++ '/' :: natToStr q.den

/-! ## `String.prototype.split` and `indexOf` -/

/-- `s.split(sep)` for a single-character separator: `""` splits to `[""]`,
`n` separators give `n + 1` tokens. -/
def splitOnC (sep : Char) : Str → List Str
  | [] => [[]]
  | c :: r =>
    if c = sep then [] :: splitOnC sep r
    else
      match splitOnC sep r with
      | [] => [[c]]
      | t :: ts => (c :: t) :: ts

/-- `s.split(',')`. -/
def splitComma (s : Str) : List Str := splitOnC ',' s

/-- `s.indexOf(c)` (as `none` for `-1`). -/
def idxOfC (sep : Char) : Str → Option ℕ
  | [] => none
  | c :: r => if c = sep then some 0 else (idxOfC sep r).map (· + 1)

/-! ## The IP regex

`/(\b25[0-5]|\b2[0-4][0-9]|\b[01]?[0-9][0-9]?)(\.(25[0-5]|2[0-4][0-9]|[01]?[0-9][0-9]?)){3}/.test(ip)`

The pattern is not anchored, so `test` succeeds iff some position of the
string (with a word boundary before the first octet) starts a match of
`octet(\.octet){3}`.  An octet sub-pattern matches exactly 1 to 3
characters; `isOctetStr` decides whether a slice can be matched by the
alternation, and the searcher enumerates slice lengths. -/

/-- Can the octet alternation `25[0-5]|2[0-4][0-9]|[01]?[0-9][0-9]?` match
exactly this string? -/
def isOctetStr : Str → Bool
  | [a] => isDig a
  | [a, b] => isDig a && isDig b
  | [a, b, c] =>
    (a = '2' && b = '5' &&
      (c = '0' || c = '1' || c = '2' || c = '3' || c = '4' || c = '5')) ||
    (a = '2' && (b = '0' || b = '1' || b = '2' || b = '3' || b = '4') && isDig c) ||
    ((a = '0' || a = '1') && isDig b && isDig c)
  | _ => false

/-- Match `(\.octet){k}` against a prefix of `s` (anything may follow). -/
def dotOctets : ℕ → Str → Bool
  | 0, _ => true
  | k + 1, s =>
    if s.head? = some '.' then
      ([1, 2, 3] : List ℕ).any fun l =>
        isOctetStr (s.tail.take l) && dotOctets k (s.tail.drop l)
    else false

/-- Match `octet(\.octet){3}` against a prefix of `s`. -/
def quadAt (s : Str) : Bool :=
  ([1, 2, 3] : List ℕ).any fun l => isOctetStr (s.take l) && dotOctets 3 (s.drop l)

/-- Scan every start position; `b` records whether the previous character
(if any) was a non-word character, i.e. whether `\b` holds before a digit
at the current position. -/
def ipSearch (b : Bool) : Str → Bool
  | [] => false
  | c :: r => (b && quadAt (c :: r)) || ipSearch (!wordChar c) r

/-- The `test` of the IP regex on a string. -/
def ipTest (s : Str) : Bool := ipSearch true s

/-! ## The dotted-quad shape as worded by the spec

Spec-side definition (for comparison with the code's regex): exactly four
`.`-separated tokens, each a decimal octet of one to three digits with
value at most 255. -/

/-- A decimal octet token per the spec's words. -/
def isOctetToken (t : Str) : Bool :=
  !t.isEmpty && decide (t.length ≤ 3) && t.all isDig && decide (natVal t ≤ 255)

/-- The spec's dotted-quad shape: exactly four decimal octets 0..255
joined by `.`. -/
def specDottedQuad (s : Str) : Bool :=
  match splitOnC '.' s with
  | [a, b, c, d] => isOctetToken a && isOctetToken b && isOctetToken c && isOctetToken d
  | _ => false

/-! ## Shared shape validators

`/^[0-9a-f]{24}$/.test(data)` — exactly 24 lowercase hex characters. -/

/-- The anchored Hex-payload regex: exactly 24 characters from `[0-9a-f]`. -/
def isHex24 (data : Str) : Bool := decide (data.length = 24) && data.all isHexLower

/-- `id.slice(-1) == c`: the last character of the ID token (the empty
string slices to the empty string, which never equals a one-char string). -/
def sliceLastIs (s : Str) (c : Char) : Bool := s.getLast? = some c

/-- Fetch `tokens[i]` as a raw candidate (`undefined` past the end). -/
def tokVal (ts : List Str) (i : ℕ) : RawVal :=
  match ts.get? i with
  | some t => .str t
  | none => .undefined

/-- The string `"undefined"` (regex `test` coerces an `undefined` argument
to this string). -/
def undefinedStr : Str := ['u', 'n', 'd', 'e', 'f', 'i', 'n', 'e', 'd']

namespace UP

/-! ### `src/usage_parser.js` -/

/-- `formatOutput(id, mnc, bytes_used, dmcc, cellid, ip)`: every numeric
field is `null` if `isNaN`, else its `Number` coercion; `dmcc` is kept only
when it is a string; `ip` is kept only when it is non-null and passes the
IP regex.  The `ip` argument is `undefined` or a string at every call site,
modelled as `Option Str`. -/
def formatOutput (id mnc bytes_used dmcc cellid : RawVal) (ip : Option Str) :
    UsageRecord :=
  let isValidIpB : Bool :=
    match ip with
    | none => false
    | some s => ipTest s
  { id := if jsIsNaN id then none else some (jsToNumber id)
    dmcc := match dmcc with
      | .str s => some s
      | _ => none
    mnc := if jsIsNaN mnc then none else some (jsToNumber mnc)
    bytes_used := if jsIsNaN bytes_used then none else some (jsToNumber bytes_used)
    cellid := if jsIsNaN cellid then none else some (jsToNumber cellid)
    ip := if isValidIpB then ip else none }

/-- The `HEX` formatter's `process`: slice fixed-width fields out of the
24-hex-character payload (`substring(a, b)` is `drop a |>.take (b - a)`)
and build the dotted IP string by template-literal interpolation. -/
def hexProcess (id data : Str) : UsageRecord :=
  let mnc := parseIntHex (data.take 4)
  let bytes_used := parseIntHex ((data.drop 4).take 4)
  let cellid := parseIntHex ((data.drop 8).take 8)
  let ip :=
    jsNumToStr (parseIntHex ((data.drop 16).take 2)) ++
    '.' :: jsNumToStr (parseIntHex ((data.drop 18).take 2)) ++
    '.' :: jsNumToStr (parseIntHex ((data.drop 20).take 2)) ++
    '.' :: jsNumToStr (parseIntHex ((data.drop 22).take 2))
  formatOutput (.str id) (.num mnc) (.num bytes_used) .undefined (.num cellid) (some ip)

/-- The `EXTENDED` formatter's `process`: destructure
`[dmcc, mnc, bytes_used, cellid]` from `data.split(',')` and call
`formatOutput(id, mnc, bytes_used, dmcc, cellid)`. -/
def extProcess (id data : Str) : UsageRecord :=
  let ts := splitComma data
  formatOutput (.str id) (tokVal ts 1) (tokVal ts 2) (tokVal ts 0) (tokVal ts 3) none

/-- The `DEFAULT` formatter's `process`: `formatOutput(id, undefined, data)`. -/
def defProcess (id data : Str) : UsageRecord :=
  formatOutput (.str id) .undefined (.str data) .undefined .undefined none

/-- The `isValid` predicate of the formatter that `getFormatter` selects
for this id (`HEX` if the id ends in `6`, else `EXTENDED` if it ends in
`4`, else `DEFAULT`; the table is ordered and `DEFAULT.applyIf` is
always true). -/
def selectedValid (id data : Str) : Bool :=
  if sliceLastIs id '6' then isHex24 data
  else if sliceLastIs id '4' then decide ((splitComma data).length = 4)
  else !(strToNumber data = .nan)

/-- `parseSingle` on a string argument: split at the first comma (`null`
when there is none), pick the formatter by the id's last character, check
its `isValid`, and run its `process`. -/
def parseSingleStr (s : Str) : Option UsageRecord :=
  match idxOfC ',' s with
  | none => none
  | some i =>
    let id := s.take i
    let data := s.drop (i + 1)
    if sliceLastIs id '6' then
      if isHex24 data then some (hexProcess id data) else none
    else if sliceLastIs id '4' then
      if (splitComma data).length = 4 then some (extProcess id data) else none
    else if strToNumber data = .nan then none
    else some (defProcess id data)

/-- `#parseSingle`.  The guard `(!typeof input) == 'string'` never fires:
`typeof input` is a nonempty string, `!` of it is `false`, and
`false == 'string'` is `false`.  A non-string argument therefore reaches
`input.indexOf(",")` and throws a `TypeError`. -/
def parseSingle : JSVal → Except Unit (Option UsageRecord)
  | .str s => .ok (parseSingleStr s)
  | .nonstr => .error ()

/-- `parse`: an array argument is mapped element-wise with `forEach` (an
exception aborts the whole loop); any other argument is parsed as a single
line and wrapped in a one-element array. -/
def parse : JSInput → Except Unit (List (Option UsageRecord))
  | .batch l => l.mapM parseSingle
  | .single v => (parseSingle v).map (fun r => [r])

end UP

namespace P0

/-! ### `src/unnamed/part_000` -/

/-- `formatOutput` of `part_000` (same body as in `usage_parser.js`). -/
def formatOutput (id mnc bytes_used dmcc cellid : RawVal) (ip : Option Str) :
    UsageRecord :=
  let isValidIpB : Bool :=
    match ip with
    | none => false
    | some s => ipTest s
  { id := if jsIsNaN id then none else some (jsToNumber id)
    dmcc := match dmcc with
      | .str s => some s
      | _ => none
    mnc := if jsIsNaN mnc then none else some (jsToNumber mnc)
    bytes_used := if jsIsNaN bytes_used then none else some (jsToNumber bytes_used)
    cellid := if jsIsNaN cellid then none else some (jsToNumber cellid)
    ip := if isValidIpB then ip else none }

/-- The result object of `#validateInput` for a string input: the comma
split, validity (`tokens.length >= 2`), and the format discriminant
`tokens[0].slice(-1)` (as a string of length at most one). -/
structure VResult : Type where
  isValid : Bool
  format : Str
  tokens : List Str
deriving DecidableEq, Repr

/-- `#validateInput` on a string: split on `,`; fewer than two tokens is
invalid; otherwise the format is the last character of the first token. -/
def validateInputStr (s : Str) : VResult :=
  let ts := splitComma s
  if ts.length < 2 then { isValid := false, format := [], tokens := ts }
  else
    { isValid := true
      format := match (ts.headD []).getLast? with
        | some c => [c]
        | none => []
      tokens := ts }

/-- `#validateInput`.  The same broken `(!typeof input) == 'string'` guard
never fires, so a non-string argument reaches `input.split` and throws. -/
def validateInput : JSVal → Except Unit VResult
  | .str s => .ok (validateInputStr s)
  | .nonstr => .error ()

/-- `#parseBasic`: destructure `[id, bytes_used]` from the tokens. -/
def parseBasic (ts : List Str) : UsageRecord :=
  formatOutput (tokVal ts 0) .undefined (tokVal ts 1) .undefined .undefined none

/-- `#parseHex`: re-validate `tokens[1]` against the 24-hex-character
regex (an out-of-range `tokens[1]` coerces to the string `undefined`,
which fails the regex), then slice the fields. -/
def parseHex (ts : List Str) : Option UsageRecord :=
  let nib := (ts.get? 1).getD undefinedStr
  if isHex24 nib then
    let mnc := parseIntHex (nib.take 4)
    let bytes_used := parseIntHex ((nib.drop 4).take 4)
    let cellid := parseIntHex ((nib.drop 8).take 8)
    let ip :=
      jsNumToStr (parseIntHex ((nib.drop 16).take 2)) ++
      '.' :: jsNumToStr (parseIntHex ((nib.drop 18).take 2)) ++
      '.' :: jsNumToStr (parseIntHex ((nib.drop 20).take 2)) ++
      '.' :: jsNumToStr (parseIntHex ((nib.drop 22).take 2))
    some (formatOutput (tokVal ts 0) (.num mnc) (.num bytes_used) .undefined
      (.num cellid) (some ip))
  else none

/-- `#parseExtended`: destructure `[id, dmcc, mnc, bytes_used, cellid]`
from the tokens (missing positions become `undefined`) and call
`formatOutput(id, mnc, bytes_used, dmcc, cellid)`. -/
def parseExtended (ts : List Str) : UsageRecord :=
  formatOutput (tokVal ts 0) (tokVal ts 2) (tokVal ts 3) (tokVal ts 1)
    (tokVal ts 4) none

/-- `#parseSingle` on a string: validate, then switch on the format
discriminant (`'4'` extended, `'6'` hex, default basic). -/
def parseSingleStr (s : Str) : Option UsageRecord :=
  let v := validateInputStr s
  if !v.isValid then none
  else if v.format = ['4'] then some (parseExtended v.tokens)
  else if v.format = ['6'] then parseHex v.tokens
  else some (parseBasic v.tokens)

/-- `#parseSingle`: a non-string argument throws inside `#validateInput`. -/
def parseSingle : JSVal → Except Unit (Option UsageRecord)
  | .str s => .ok (parseSingleStr s)
  | .nonstr => .error ()

/-- `parse` of `part_000`: same shape as in `usage_parser.js`. -/
def parse : JSInput → Except Unit (List (Option UsageRecord))
  | .batch l => l.mapM parseSingle
  | .single v => (parseSingle v).map (fun r => [r])

end P0

/-! ## Basic list and character-class lemmas -/

theorem takeWhile_all {p : Char → Bool} : ∀ {l : Str}, (∀ c ∈ l, p c = true) →
    l.takeWhile p = l
  | [], _ => rfl
  | c :: r, h => by
    rw [List.takeWhile_cons, if_pos (h c (by simp))]
    exact congrArg (c :: ·) (takeWhile_all fun x hx => h x (by simp [hx]))

theorem dropWhile_all {p : Char → Bool} : ∀ {l : Str}, (∀ c ∈ l, p c = true) →
    l.dropWhile p = []
  | [], _ => rfl
  | c :: r, h => by
    rw [List.dropWhile_cons, if_pos (h c (by simp))]
    exact dropWhile_all fun x hx => h x (by simp [hx])

theorem dropWhile_head_false {p : Char → Bool} : ∀ {l : Str},
    (∀ c ∈ l, p c = false) → l.dropWhile p = l
  | [], _ => rfl
  | c :: r, h => by
    rw [List.dropWhile_cons, if_neg]
    simp [h c (by simp)]

theorem trimWs_eq_self {s : Str} (h : ∀ c ∈ s, isWs c = false) : trimWs s = s := by
  unfold trimWs
  rw [dropWhile_head_false h, dropWhile_head_false (by simpa using h), List.reverse_reverse]

theorem mem_of_head? {l : Str} {a : Char} (h : l.head? = some a) : a ∈ l := by
  cases l <;> simp_all

theorem isDig_cases {c : Char} (h : isDig c = true) :
    c = '0' ∨ c = '1' ∨ c = '2' ∨ c = '3' ∨ c = '4' ∨ c = '5' ∨ c = '6' ∨
    c = '7' ∨ c = '8' ∨ c = '9' := by
  unfold isDig digitVal? at h
  split_ifs at h <;> first
    | (subst_vars; decide)
    | simp at h

theorem isHexLower_cases {c : Char} (h : isHexLower c = true) :
    c = '0' ∨ c = '1' ∨ c = '2' ∨ c = '3' ∨ c = '4' ∨ c = '5' ∨ c = '6' ∨
    c = '7' ∨ c = '8' ∨ c = '9' ∨ c = 'a' ∨ c = 'b' ∨ c = 'c' ∨ c = 'd' ∨
    c = 'e' ∨ c = 'f' := by
  have h6 : c = 'a' ∨ c = 'b' ∨ c = 'c' ∨ c = 'd' ∨ c = 'e' ∨ c = 'f' ∨
      isDig c = true := by
    unfold isHexLower hexLowerVal? at h
    split_ifs at h <;> (subst_vars; tauto)
  rcases h6 with rfl | rfl | rfl | rfl | rfl | rfl | hd
  · tauto
  · tauto
  · tauto
  · tauto
  · tauto
  · tauto
  · rcases isDig_cases hd with rfl | rfl | rfl | rfl | rfl | rfl | rfl | rfl | rfl |
      rfl <;> tauto

theorem isDig_isHexLower {c : Char} (h : isDig c = true) : isHexLower c = true := by
  rcases isDig_cases h with rfl | rfl | rfl | rfl | rfl | rfl | rfl | rfl | rfl | rfl <;>
    decide

theorem isHexLower_isHexDigit {c : Char} (h : isHexLower c = true) :
    isHexDigit c = true := by
  rcases isHexLower_cases h with rfl | rfl | rfl | rfl | rfl | rfl | rfl | rfl | rfl |
    rfl | rfl | rfl | rfl | rfl | rfl | rfl <;> decide

theorem isHexLower_not_ws {c : Char} (h : isHexLower c = true) : isWs c = false := by
  rcases isHexLower_cases h with rfl | rfl | rfl | rfl | rfl | rfl | rfl | rfl | rfl |
    rfl | rfl | rfl | rfl | rfl | rfl | rfl <;> decide

theorem isHexLower_ne {c : Char} (h : isHexLower c = true) :
    c ≠ '+' ∧ c ≠ '-' ∧ c ≠ ',' ∧ c ≠ 'x' ∧ c ≠ 'X' ∧ c ≠ '.' := by
  rcases isHexLower_cases h with rfl | rfl | rfl | rfl | rfl | rfl | rfl | rfl | rfl |
    rfl | rfl | rfl | rfl | rfl | rfl | rfl <;> decide

theorem isDig_ne {c : Char} (h : isDig c = true) :
    c ≠ '+' ∧ c ≠ '-' ∧ c ≠ ',' ∧ c ≠ 'x' ∧ c ≠ 'X' ∧ c ≠ 'b' ∧ c ≠ 'B' ∧
    c ≠ 'o' ∧ c ≠ 'O' ∧ c ≠ 'I' ∧ c ≠ '.' := by
  rcases isDig_cases h with rfl | rfl | rfl | rfl | rfl | rfl | rfl | rfl | rfl | rfl <;>
    decide

theorem hexVal_lt {c : Char} (h : isHexLower c = true) : (hexVal? c).getD 0 < 16 := by
  rcases isHexLower_cases h with rfl | rfl | rfl | rfl | rfl | rfl | rfl | rfl | rfl |
    rfl | rfl | rfl | rfl | rfl | rfl | rfl <;> decide

theorem hexDigitChar_val {c : Char} (h : isHexLower c = true) :
    hexDigitChar ((hexVal? c).getD 0) = c := by
  rcases isHexLower_cases h with rfl | rfl | rfl | rfl | rfl | rfl | rfl | rfl | rfl |
    rfl | rfl | rfl | rfl | rfl | rfl | rfl <;> decide

/-! ## Folded values and the hex round trip -/

theorem hexValue_append_one (s : Str) (c : Char) :
    hexValue (s ++ [c]) = 16 * hexValue s + (hexVal? c).getD 0 := by
  simp [hexValue, List.foldl_append]

theorem hexValue_lt {s : Str} (h : ∀ c ∈ s, isHexLower c = true) :
    hexValue s < 16 ^ s.length := by
  induction s using List.reverseRecOn with
  | nil => simp [hexValue]
  | append_singleton t c ih =>
    rw [hexValue_append_one]
    have h1 : hexValue t < 16 ^ t.length := ih fun x hx => h x (by simp [hx])
    have h2 : (hexVal? c).getD 0 < 16 := hexVal_lt (h c (by simp))
    simp only [List.length_append, List.length_cons, List.length_nil]
    calc 16 * hexValue t + (hexVal? c).getD 0 < 16 * hexValue t + 16 := by omega
    _ = 16 * (hexValue t + 1) := by ring
    _ ≤ 16 * 16 ^ t.length := by
        have : hexValue t + 1 ≤ 16 ^ t.length := h1
        omega
    _ = 16 ^ (t.length + (0 + 1)) := by ring

theorem natToHex_hexValue : ∀ {s : Str}, (∀ c ∈ s, isHexLower c = true) →
    natToHex s.length (hexValue s) = s := by
  intro s
  induction s using List.reverseRecOn with
  | nil => intro _; rfl
  | append_singleton t c ih =>
    intro h
    have hc : isHexLower c = true := h c (by simp)
    have hd : (hexVal? c).getD 0 < 16 := hexVal_lt hc
    rw [hexValue_append_one]
    simp only [List.length_append, List.length_cons, List.length_nil, Nat.add_zero]
    rw [natToHex]
    have hdiv : (16 * hexValue t + (hexVal? c).getD 0) / 16 = hexValue t := by
      omega
    have hmod : (16 * hexValue t + (hexVal? c).getD 0) % 16 = (hexVal? c).getD 0 := by
      omega
    rw [hdiv, hmod, ih (fun x hx => h x (by simp [hx])), hexDigitChar_val hc]

/-! ## `strToNumber` and `parseIntHex` on validated strings -/

theorem isDig_not_ws {c : Char} (h : isDig c = true) : isWs c = false := by
  rcases isDig_cases h with rfl | rfl | rfl | rfl | rfl | rfl | rfl | rfl | rfl | rfl <;>
    decide

theorem strToNumber_digits {s : Str} (hne : s ≠ []) (h : ∀ c ∈ s, isDig c = true) :
    strToNumber s = .val ((natVal s : ℚ)) := by
  have hws : ∀ c ∈ s, isWs c = false := fun c hc => isDig_not_ws (h c hc)
  have htrim : trimWs s = s := trimWs_eq_self hws
  have hplus : ¬s.head? = some '+' := fun hh =>
    absurd (h '+' (mem_of_head? hh)) (by decide)
  have hminus : ¬s.head? = some '-' := fun hh =>
    absurd (h '-' (mem_of_head? hh)) (by decide)
  have htake2 : ∀ ch : Char, isDig ch = false → ¬s.take 2 = ['0', ch] := by
    intro ch hch heq
    have hm : ch ∈ s.take 2 := by rw [heq]; simp
    have := h ch (List.take_subset _ _ hm)
    rw [hch] at this
    exact absurd this (by simp)
  have hx := htake2 'x' (by decide)
  have hX := htake2 'X' (by decide)
  have hb := htake2 'b' (by decide)
  have hB := htake2 'B' (by decide)
  have ho := htake2 'o' (by decide)
  have hO := htake2 'O' (by decide)
  have hinf : ¬s = infChars := by
    intro heq
    have := h 'I' (by rw [heq]; simp [infChars])
    exact absurd this (by decide)
  have htw : s.takeWhile isDig = s := takeWhile_all h
  have hdw : s.dropWhile isDig = [] := dropWhile_all h
  simp only [strToNumber, htrim]
  rw [if_neg hne, if_neg hplus, if_neg hminus, if_neg (by tauto), if_neg (by tauto),
    if_neg (by tauto)]
  simp only [parseUnsignedDec]
  rw [if_neg hinf]
  simp only [parseDec, htw, hdw]
  simp [hne]

theorem parseIntHex_hexLower {s : Str} (hne : s ≠ []) (h : ∀ c ∈ s, isHexLower c = true) :
    parseIntHex s = .val ((hexValue s : ℚ)) := by
  have hws : ∀ c ∈ s, isWs c = false := fun c hc => isHexLower_not_ws (h c hc)
  have hdw : s.dropWhile isWs = s := dropWhile_head_false hws
  have hplus : ¬s.head? = some '+' := fun hh =>
    absurd (h '+' (mem_of_head? hh)) (by decide)
  have hminus : ¬s.head? = some '-' := fun hh =>
    absurd (h '-' (mem_of_head? hh)) (by decide)
  have htake2 : ∀ ch : Char, isHexLower ch = false → ¬s.take 2 = ['0', ch] := by
    intro ch hch heq
    have hm : ch ∈ s.take 2 := by rw [heq]; simp
    have := h ch (List.take_subset _ _ hm)
    rw [hch] at this
    exact absurd this (by simp)
  have hx := htake2 'x' (by decide)
  have hX := htake2 'X' (by decide)
  have htw : s.takeWhile isHexDigit = s :=
    takeWhile_all fun c hc => isHexLower_isHexDigit (h c hc)
  have hr2 : (if s.take 2 = ['0', 'x'] ∨ s.take 2 = ['0', 'X'] then s.drop 2 else s)
      = s := if_neg (by tauto)
  simp only [parseIntHex, hdw]
  rw [if_neg hplus, if_neg hminus]
  simp only [parseIntHexBody, hr2, htw]
  rw [if_neg hne]
  simp

/-! ## `splitOnC` and `idxOfC` -/

theorem splitOnC_ne_nil (sep : Char) : ∀ s : Str, splitOnC sep s ≠ []
  | [] => by simp [splitOnC]
  | c :: r => by
    unfold splitOnC
    split_ifs
    · simp
    · cases hs : splitOnC sep r <;> simp

theorem splitOnC_no_sep {sep : Char} : ∀ {s : Str}, sep ∉ s → splitOnC sep s = [s]
  | [], _ => rfl
  | c :: r, h => by
    unfold splitOnC
    rw [if_neg (by intro heq; exact h (by simp [heq]))]
    rw [splitOnC_no_sep (by intro hm; exact h (by simp [hm]))]

theorem splitOnC_append {sep : Char} {b : Str} : ∀ {a : Str}, sep ∉ a →
    splitOnC sep (a ++ sep :: b) = a :: splitOnC sep b
  | [], _ => by simp [splitOnC]
  | c :: r, h => by
    have hcs : ¬c = sep := fun heq => h (by simp [heq])
    have ih := @splitOnC_append sep b r (fun hm => h (by simp [hm]))
    simp only [List.cons_append]
    conv_lhs => unfold splitOnC
    rw [if_neg hcs, ih]

theorem idxOfC_no {sep : Char} : ∀ {s : Str}, sep ∉ s → idxOfC sep s = none
  | [], _ => rfl
  | c :: r, h => by
    unfold idxOfC
    rw [if_neg (fun heq => h (by simp [heq])),
      idxOfC_no (fun hm => h (by simp [hm]))]
    rfl

theorem idxOfC_append {sep : Char} {b : Str} : ∀ {a : Str}, sep ∉ a →
    idxOfC sep (a ++ sep :: b) = some a.length
  | [], _ => by simp [idxOfC]
  | c :: r, h => by
    have hcs : ¬c = sep := fun heq => h (by simp [heq])
    have ih := @idxOfC_append sep b r (fun hm => h (by simp [hm]))
    simp only [List.cons_append]
    unfold idxOfC
    rw [if_neg hcs, ih]
    rfl

theorem take_of_append {a : Str} (b : Str) : (a ++ b).take a.length = a :=
  List.take_left a b

theorem drop_succ_of_append {a b : Str} {c : Char} :
    (a ++ c :: b).drop (a.length + 1) = b := by
  have h1 : (a ++ c :: b).drop a.length = c :: b := List.drop_left a (c :: b)
  have h2 : (a ++ c :: b).drop (a.length + 1) =
      ((a ++ c :: b).drop a.length).drop 1 := by
    rw [List.drop_drop]
  rw [h2, h1]
  rfl

/-! ## Batches of strings never throw -/

theorem mapM_loop_ok {α β : Type} (f : α → Option β) :
    ∀ (l : List α) (acc : List (Option β)),
      List.mapM.loop (fun a => (Except.ok (f a) : Except Unit (Option β))) l acc =
        .ok (acc.reverse ++ l.map f)
  | [], acc => by simp [List.mapM.loop, pure, Except.pure]
  | a :: r, acc => by
    have ih := mapM_loop_ok f r (f a :: acc)
    simp only [List.mapM.loop, bind, Except.bind, ih]
    simp

theorem mapM_ok_of_fn {α β : Type} (f : α → Option β) (l : List α) :
    List.mapM (fun a => (Except.ok (f a) : Except Unit (Option β))) l =
      .ok (l.map f) := by
  simpa using mapM_loop_ok f l []

/-! ## IP regex lemmas -/

theorem octet_natToStr : ∀ a : Fin 256,
    isOctetStr (natToStr a.1) = true ∧ 1 ≤ (natToStr a.1).length ∧
      (natToStr a.1).length ≤ 3 := by decide

theorem dotOctets_step {o r : Str} {k : ℕ} (h : isOctetStr o = true)
    (hl : 1 ≤ o.length) (hu : o.length ≤ 3) (hr : dotOctets k r = true) :
    dotOctets (k + 1) ('.' :: (o ++ r)) = true := by
  unfold dotOctets
  rw [if_pos (by simp)]
  rw [List.any_eq_true]
  refine ⟨o.length, ?_, ?_⟩
  · have : o.length = 1 ∨ o.length = 2 ∨ o.length = 3 := by omega
    simpa using this
  · simp only [List.tail_cons]
    rw [take_of_append, List.drop_left]
    simp [h, hr]

theorem quadAt_build {o1 o2 o3 o4 : Str}
    (h1 : isOctetStr o1 = true) (l1 : 1 ≤ o1.length) (u1 : o1.length ≤ 3)
    (h2 : isOctetStr o2 = true) (l2 : 1 ≤ o2.length) (u2 : o2.length ≤ 3)
    (h3 : isOctetStr o3 = true) (l3 : 1 ≤ o3.length) (u3 : o3.length ≤ 3)
    (h4 : isOctetStr o4 = true) (l4 : 1 ≤ o4.length) (u4 : o4.length ≤ 3) :
    quadAt (o1 ++ '.' :: (o2 ++ '.' :: (o3 ++ '.' :: o4))) = true := by
  unfold quadAt
  rw [List.any_eq_true]
  refine ⟨o1.length, ?_, ?_⟩
  · have : o1.length = 1 ∨ o1.length = 2 ∨ o1.length = 3 := by omega
    simpa using this
  · rw [take_of_append, List.drop_left]
    simp only [h1, Bool.true_and]
    apply dotOctets_step h2 l2 u2
    apply dotOctets_step h3 l3 u3
    have ho4 : ('.' : Char) :: o4 = '.' :: (o4 ++ []) := by simp
    rw [ho4]
    exact dotOctets_step h4 l4 u4 rfl

theorem ipTest_of_quadAt {s : Str} (h : quadAt s = true) (hne : s ≠ []) :
    ipTest s = true := by
  cases s with
  | nil => exact absurd rfl hne
  | cons c r =>
    unfold ipTest ipSearch
    simp [h]

theorem ipTest_octets {a b c d : ℕ} (ha : a < 256) (hb : b < 256) (hc : c < 256)
    (hd : d < 256) :
    ipTest (natToStr a ++ '.' :: (natToStr b ++ '.' :: (natToStr c ++ '.' ::
      natToStr d))) = true := by
  obtain ⟨o1, p1, q1⟩ := octet_natToStr ⟨a, ha⟩
  obtain ⟨o2, p2, q2⟩ := octet_natToStr ⟨b, hb⟩
  obtain ⟨o3, p3, q3⟩ := octet_natToStr ⟨c, hc⟩
  obtain ⟨o4, p4, q4⟩ := octet_natToStr ⟨d, hd⟩
  apply ipTest_of_quadAt (quadAt_build o1 p1 q1 o2 p2 q2 o3 p3 q3 o4 p4 q4)
  intro heq
  have : (natToStr a ++ '.' :: (natToStr b ++ '.' :: (natToStr c ++ '.' ::
      natToStr d))).length = 0 := by rw [heq]; rfl
  simp [List.length_append] at this

/-! ## Spec dotted quads pass the regex -/

/-- The decimal digit character of a bounded value. -/
def dChar (v : Fin 10) : Char := digitChar v.1

theorem isDig_dChar_exists {c : Char} (h : isDig c = true) :
    ∃ v : Fin 10, c = dChar v := by
  rcases isDig_cases h with rfl | rfl | rfl | rfl | rfl | rfl | rfl | rfl | rfl | rfl
  exacts [⟨0, by decide⟩, ⟨1, by decide⟩, ⟨2, by decide⟩, ⟨3, by decide⟩,
    ⟨4, by decide⟩, ⟨5, by decide⟩, ⟨6, by decide⟩, ⟨7, by decide⟩,
    ⟨8, by decide⟩, ⟨9, by decide⟩]

theorem natVal3_dChar : ∀ v1 v2 v3 : Fin 10,
    natVal [dChar v1, dChar v2, dChar v3] = 100 * v1.1 + 10 * v2.1 + v3.1 := by
  decide

theorem octet1_dChar : ∀ v : Fin 10, isOctetStr [dChar v] = true := by decide

theorem octet2_dChar : ∀ v1 v2 : Fin 10, isOctetStr [dChar v1, dChar v2] = true := by
  decide

theorem octet3_dChar : ∀ v1 v2 v3 : Fin 10, 100 * v1.1 + 10 * v2.1 + v3.1 ≤ 255 →
    isOctetStr [dChar v1, dChar v2, dChar v3] = true := by decide

theorem isOctetToken_facts {t : Str} (h : isOctetToken t = true) :
    isOctetStr t = true ∧ 1 ≤ t.length ∧ t.length ≤ 3 := by
  unfold isOctetToken at h
  simp only [Bool.and_eq_true, decide_eq_true_eq, List.all_eq_true,
    Bool.not_eq_true', List.isEmpty_eq_false] at h
  obtain ⟨⟨⟨hne, hlen⟩, hall⟩, hval⟩ := h
  have hpos : 1 ≤ t.length := by
    cases t with
    | nil => exact absurd rfl hne
    | cons x r => simp
  refine ⟨?_, hpos, hlen⟩
  match t, hne with
  | [x], _ =>
    obtain ⟨v, rfl⟩ := isDig_dChar_exists (hall x (by simp))
    exact octet1_dChar v
  | [x, y], _ =>
    obtain ⟨v1, rfl⟩ := isDig_dChar_exists (hall x (by simp))
    obtain ⟨v2, rfl⟩ := isDig_dChar_exists (hall y (by simp))
    exact octet2_dChar v1 v2
  | [x, y, z], _ =>
    obtain ⟨v1, rfl⟩ := isDig_dChar_exists (hall x (by simp))
    obtain ⟨v2, rfl⟩ := isDig_dChar_exists (hall y (by simp))
    obtain ⟨v3, rfl⟩ := isDig_dChar_exists (hall z (by simp))
    rw [natVal3_dChar] at hval
    exact octet3_dChar v1 v2 v3 hval

/-- Rejoin a token list with a separator (the inverse of `splitOnC`). -/
def joinC (sep : Char) : List Str → Str
  | [] => []
  | [t] => t
  | t :: ts => t ++ sep :: joinC sep ts

theorem joinC_cons_cons (sep c : Char) (t : Str) (ts : List Str) :
    joinC sep ((c :: t) :: ts) = c :: joinC sep (t :: ts) := by
  cases ts <;> rfl

theorem splitOnC_recon (sep : Char) : ∀ s : Str, joinC sep (splitOnC sep s) = s
  | [] => rfl
  | c :: r => by
    have ih := splitOnC_recon sep r
    obtain ⟨t, ts, hts⟩ : ∃ t ts, splitOnC sep r = t :: ts := by
      cases hsp : splitOnC sep r with
      | nil => exact absurd hsp (splitOnC_ne_nil sep r)
      | cons t ts => exact ⟨t, ts, rfl⟩
    unfold splitOnC
    split_ifs with hcs
    · subst hcs
      rw [hts]
      show ([] : Str) ++ c :: joinC c (t :: ts) = c :: r
      rw [List.nil_append, ← hts, ih]
    · rw [hts]
      show joinC sep ((c :: t) :: ts) = c :: r
      rw [joinC_cons_cons, ← hts, ih]

theorem specDQ_shape {s : Str} (h : specDottedQuad s = true) :
    ∃ a b c d : Str, s = a ++ '.' :: (b ++ '.' :: (c ++ '.' :: d)) ∧
      isOctetToken a = true ∧ isOctetToken b = true ∧ isOctetToken c = true ∧
      isOctetToken d = true := by
  unfold specDottedQuad at h
  split at h
  case h_1 a b c d heq =>
    simp only [Bool.and_eq_true] at h
    obtain ⟨⟨⟨ha, hb⟩, hc⟩, hd⟩ := h
    refine ⟨a, b, c, d, ?_, ha, hb, hc, hd⟩
    have hr := splitOnC_recon '.' s
    rw [heq] at hr
    simpa [joinC] using hr.symm
  case h_2 => exact absurd h (by simp)

theorem specDQ_ipTest {s : Str} (h : specDottedQuad s = true) : ipTest s = true := by
  obtain ⟨a, b, c, d, rfl, ha, hb, hc, hd⟩ := specDQ_shape h
  obtain ⟨oa, pa, qa⟩ := isOctetToken_facts ha
  obtain ⟨ob, pb, qb⟩ := isOctetToken_facts hb
  obtain ⟨oc, pc, qc⟩ := isOctetToken_facts hc
  obtain ⟨od, pd, qd⟩ := isOctetToken_facts hd
  apply ipTest_of_quadAt (quadAt_build oa pa qa ob pb qb oc pc qc od pd qd)
  intro heq
  have : (a ++ '.' :: (b ++ '.' :: (c ++ '.' :: d))).length = 0 := by rw [heq]; rfl
  simp [List.length_append] at this

/-! ## Canonical record shapes for well-formed lines -/

/-- The per-field numeric normalization applied by `formatOutput` to a
string candidate: absent iff `isNaN`, else the `Number` coercion. -/
def numNorm (s : Str) : Option JSNum :=
  if strToNumber s = .nan then none else some (strToNumber s)

/-- The record both implementations produce for a well-formed Hex line
`id ++ "," ++ data`: fields are base-16 values of the fixed-width slices,
the IP is the dotted join of the four octet values. -/
def hexRecord (id data : Str) : UsageRecord :=
  { id := numNorm id
    dmcc := none
    mnc := some (.val (hexValue (data.take 4)))
    bytes_used := some (.val (hexValue ((data.drop 4).take 4)))
    cellid := some (.val (hexValue ((data.drop 8).take 8)))
    ip := some (natToStr (hexValue ((data.drop 16).take 2)) ++ '.' ::
      (natToStr (hexValue ((data.drop 18).take 2)) ++ '.' ::
      (natToStr (hexValue ((data.drop 20).take 2)) ++ '.' ::
      natToStr (hexValue ((data.drop 22).take 2))))) }

/-- The record both implementations produce for a well-formed Extended
line: the four payload tokens map positionally to
`dmcc, mnc, bytes_used, cellid` (numeric ones normalized); no IP. -/
def extRecord (id t1 t2 t3 t4 : Str) : UsageRecord :=
  { id := numNorm id
    dmcc := some t1
    mnc := numNorm t2
    bytes_used := numNorm t3
    cellid := numNorm t4
    ip := none }

/-- The record both implementations produce for a Default-format line
`a ++ "," ++ b`: only `id` and `bytes_used`. -/
def defRecord (a b : Str) : UsageRecord :=
  { id := numNorm a
    dmcc := none
    mnc := none
    bytes_used := numNorm b
    cellid := none
    ip := none }

theorem jsNumToStr_nat (n : ℕ) : jsNumToStr (.val (n : ℚ)) = natToStr n := by
  simp [jsNumToStr, Rat.den_natCast, intToStr, Rat.num_natCast]

/-! ## Facts about hex slices -/

theorem hexSlice_mem {data : Str} (hhex : ∀ c ∈ data, isHexLower c = true)
    (off len : ℕ) : ∀ c ∈ (data.drop off).take len, isHexLower c = true :=
  fun c hc => hhex c (List.drop_subset _ _ (List.take_subset _ _ hc))

theorem hexSlice_len {data : Str} (hlen : data.length = 24) (off len : ℕ)
    (h : off + len ≤ 24) : ((data.drop off).take len).length = len := by
  simp only [List.length_take, List.length_drop, hlen]
  omega

theorem hexSlice_ne {data : Str} (hlen : data.length = 24) (off len : ℕ)
    (h : off + len ≤ 24) (hp : 0 < len) : (data.drop off).take len ≠ [] := by
  intro heq
  have := hexSlice_len hlen off len h
  rw [heq] at this
  simp at this
  omega

theorem hexSlice_lt {data : Str} (hlen : data.length = 24)
    (hhex : ∀ c ∈ data, isHexLower c = true) (off : ℕ) (h : off + 2 ≤ 24) :
    hexValue ((data.drop off).take 2) < 256 := by
  have := hexValue_lt (hexSlice_mem hhex off 2)
  rwa [hexSlice_len hlen off 2 h] at this

/-! ## Evaluating `usage_parser.js` on well-formed lines -/

theorem UP.hexProcess_eq {id data : Str} (hlen : data.length = 24)
    (hhex : ∀ c ∈ data, isHexLower c = true) :
    UP.hexProcess id data = hexRecord id data := by
  have hd0 : data.take 4 = (data.drop 0).take 4 := by simp
  have hip : ipTest (natToStr (hexValue ((data.drop 16).take 2)) ++ '.' ::
      (natToStr (hexValue ((data.drop 18).take 2)) ++ '.' ::
      (natToStr (hexValue ((data.drop 20).take 2)) ++ '.' ::
      natToStr (hexValue ((data.drop 22).take 2))))) = true :=
    ipTest_octets (hexSlice_lt hlen hhex 16 (by omega))
      (hexSlice_lt hlen hhex 18 (by omega)) (hexSlice_lt hlen hhex 20 (by omega))
      (hexSlice_lt hlen hhex 22 (by omega))
  unfold UP.hexProcess
  rw [hd0,
    parseIntHex_hexLower (hexSlice_ne hlen 0 4 (by omega) (by omega))
      (hexSlice_mem hhex 0 4),
    parseIntHex_hexLower (hexSlice_ne hlen 4 4 (by omega) (by omega))
      (hexSlice_mem hhex 4 4),
    parseIntHex_hexLower (hexSlice_ne hlen 8 8 (by omega) (by omega))
      (hexSlice_mem hhex 8 8),
    parseIntHex_hexLower (hexSlice_ne hlen 16 2 (by omega) (by omega))
      (hexSlice_mem hhex 16 2),
    parseIntHex_hexLower (hexSlice_ne hlen 18 2 (by omega) (by omega))
      (hexSlice_mem hhex 18 2),
    parseIntHex_hexLower (hexSlice_ne hlen 20 2 (by omega) (by omega))
      (hexSlice_mem hhex 20 2),
    parseIntHex_hexLower (hexSlice_ne hlen 22 2 (by omega) (by omega))
      (hexSlice_mem hhex 22 2),
    jsNumToStr_nat, jsNumToStr_nat, jsNumToStr_nat, jsNumToStr_nat]
  unfold UP.formatOutput hexRecord
  simp only [UsageRecord.mk.injEq, jsIsNaN, jsToNumber, numNorm]
  refine ⟨by simp, trivial, by simp, by simp, by simp, ?_⟩
  simp only [List.append_assoc, List.cons_append, List.nil_append]
  rw [if_pos hip]

theorem UP.extProcess_eq {id data t1 t2 t3 t4 : Str}
    (hsplit : splitComma data = [t1, t2, t3, t4]) :
    UP.extProcess id data = extRecord id t1 t2 t3 t4 := by
  unfold UP.extProcess extRecord
  rw [hsplit]
  unfold UP.formatOutput
  simp only [UsageRecord.mk.injEq, jsIsNaN, jsToNumber, numNorm, tokVal]
  refine ⟨by simp, by simp, by simp, by simp, by simp, by simp⟩

theorem UP.defProcess_eq (a b : Str) : UP.defProcess a b = defRecord a b := by
  unfold UP.defProcess defRecord UP.formatOutput
  simp only [UsageRecord.mk.injEq, jsIsNaN, jsToNumber, numNorm]
  refine ⟨by simp, by simp, by simp, by simp, by simp, by simp⟩

theorem UP.parseSingleStr_split {id data : Str} (hc : ',' ∉ id) :
    UP.parseSingleStr (id ++ ',' :: data) =
      if sliceLastIs id '6' then
        if isHex24 data then some (UP.hexProcess id data) else none
      else if sliceLastIs id '4' then
        if (splitComma data).length = 4 then some (UP.extProcess id data) else none
      else if strToNumber data = .nan then none
      else some (UP.defProcess id data) := by
  unfold UP.parseSingleStr
  rw [idxOfC_append hc]
  simp only [take_of_append, drop_succ_of_append]

theorem UP.hex_line {id data : Str} (h6 : id.getLast? = some '6') (hc : ',' ∉ id)
    (hlen : data.length = 24) (hhex : ∀ c ∈ data, isHexLower c = true) :
    UP.parseSingleStr (id ++ ',' :: data) = some (hexRecord id data) := by
  rw [UP.parseSingleStr_split hc]
  rw [if_pos (by simp [sliceLastIs, h6])]
  rw [if_pos (by simp [isHex24, hlen, List.all_eq_true]; exact hhex)]
  rw [UP.hexProcess_eq hlen hhex]

theorem UP.ext_line {id t1 t2 t3 t4 : Str} (h4 : id.getLast? = some '4')
    (hc : ',' ∉ id) (h1 : ',' ∉ t1) (h2 : ',' ∉ t2) (h3 : ',' ∉ t3)
    (ht4 : ',' ∉ t4) :
    UP.parseSingleStr (id ++ ',' :: (t1 ++ ',' :: (t2 ++ ',' :: (t3 ++ ',' :: t4))))
      = some (extRecord id t1 t2 t3 t4) := by
  have hsplit : splitComma (t1 ++ ',' :: (t2 ++ ',' :: (t3 ++ ',' :: t4))) =
      [t1, t2, t3, t4] := by
    unfold splitComma
    rw [splitOnC_append h1, splitOnC_append h2, splitOnC_append h3,
      splitOnC_no_sep ht4]
  rw [UP.parseSingleStr_split hc]
  rw [if_neg (by simp [sliceLastIs, h4]), if_pos (by simp [sliceLastIs, h4]),
    if_pos (by rw [hsplit]; rfl), UP.extProcess_eq hsplit]

theorem UP.def_line {a b : Str} (h6 : ¬a.getLast? = some '6')
    (h4 : ¬a.getLast? = some '4') (hc : ',' ∉ a)
    (hb : ¬strToNumber b = .nan) :
    UP.parseSingleStr (a ++ ',' :: b) = some (defRecord a b) := by
  rw [UP.parseSingleStr_split hc]
  rw [if_neg (by simp [sliceLastIs, h6]), if_neg (by simp [sliceLastIs, h4]),
    if_neg hb, UP.defProcess_eq]

/-! ## Evaluating `part_000` on well-formed lines -/

theorem P0.parseHex_eq {id data : Str} (hlen : data.length = 24)
    (hhex : ∀ c ∈ data, isHexLower c = true) :
    P0.parseHex [id, data] = some (hexRecord id data) := by
  have hd0 : data.take 4 = (data.drop 0).take 4 := by simp
  have hip : ipTest (natToStr (hexValue ((data.drop 16).take 2)) ++ '.' ::
      (natToStr (hexValue ((data.drop 18).take 2)) ++ '.' ::
      (natToStr (hexValue ((data.drop 20).take 2)) ++ '.' ::
      natToStr (hexValue ((data.drop 22).take 2))))) = true :=
    ipTest_octets (hexSlice_lt hlen hhex 16 (by omega))
      (hexSlice_lt hlen hhex 18 (by omega)) (hexSlice_lt hlen hhex 20 (by omega))
      (hexSlice_lt hlen hhex 22 (by omega))
  unfold P0.parseHex
  rw [show (([id, data].get? 1).getD undefinedStr) = data from rfl]
  rw [if_pos (by simp [isHex24, hlen, List.all_eq_true]; exact hhex)]
  rw [hd0,
    parseIntHex_hexLower (hexSlice_ne hlen 0 4 (by omega) (by omega))
      (hexSlice_mem hhex 0 4),
    parseIntHex_hexLower (hexSlice_ne hlen 4 4 (by omega) (by omega))
      (hexSlice_mem hhex 4 4),
    parseIntHex_hexLower (hexSlice_ne hlen 8 8 (by omega) (by omega))
      (hexSlice_mem hhex 8 8),
    parseIntHex_hexLower (hexSlice_ne hlen 16 2 (by omega) (by omega))
      (hexSlice_mem hhex 16 2),
    parseIntHex_hexLower (hexSlice_ne hlen 18 2 (by omega) (by omega))
      (hexSlice_mem hhex 18 2),
    parseIntHex_hexLower (hexSlice_ne hlen 20 2 (by omega) (by omega))
      (hexSlice_mem hhex 20 2),
    parseIntHex_hexLower (hexSlice_ne hlen 22 2 (by omega) (by omega))
      (hexSlice_mem hhex 22 2),
    jsNumToStr_nat, jsNumToStr_nat, jsNumToStr_nat, jsNumToStr_nat]
  unfold P0.formatOutput hexRecord
  simp only [Option.some.injEq, UsageRecord.mk.injEq, jsIsNaN, jsToNumber, numNorm,
    tokVal]
  refine ⟨by simp, trivial, by simp, by simp, by simp, ?_⟩
  simp only [List.append_assoc, List.cons_append, List.nil_append]
  rw [if_pos hip]

theorem P0.parseExtended_eq (id t1 t2 t3 t4 : Str) :
    P0.parseExtended [id, t1, t2, t3, t4] = extRecord id t1 t2 t3 t4 := by
  unfold P0.parseExtended extRecord P0.formatOutput
  simp only [UsageRecord.mk.injEq, jsIsNaN, jsToNumber, numNorm, tokVal]
  refine ⟨by simp, by simp, by simp, by simp, by simp, by simp⟩

theorem P0.parseBasic_eq (a b : Str) : P0.parseBasic [a, b] = defRecord a b := by
  unfold P0.parseBasic defRecord P0.formatOutput
  simp only [UsageRecord.mk.injEq, jsIsNaN, jsToNumber, numNorm, tokVal]
  refine ⟨by simp, by simp, by simp, by simp, by simp, by simp⟩

theorem P0.parseSingleStr_of_split {s : Str} {t0 : Str} {ts : List Str}
    (hts : splitComma s = t0 :: ts) (hlen : 1 ≤ ts.length) :
    P0.parseSingleStr s =
      (if (match t0.getLast? with | some c => [c] | none => ([] : Str)) = ['4'] then
        some (P0.parseExtended (t0 :: ts))
      else if (match t0.getLast? with | some c => [c] | none => ([] : Str)) = ['6'] then
        P0.parseHex (t0 :: ts)
      else some (P0.parseBasic (t0 :: ts))) := by
  unfold P0.parseSingleStr P0.validateInputStr
  rw [hts]
  rw [if_neg (show ¬(t0 :: ts).length < 2 by simp only [List.length_cons]; omega)]
  rfl

theorem P0.hex_line_p0 {id data : Str} (h6 : id.getLast? = some '6') (hc : ',' ∉ id)
    (hlen : data.length = 24) (hhex : ∀ c ∈ data, isHexLower c = true) :
    P0.parseSingleStr (id ++ ',' :: data) = some (hexRecord id data) := by
  have hdc : ',' ∉ data := fun hm => absurd (hhex ',' hm) (by decide)
  have hts : splitComma (id ++ ',' :: data) = [id, data] := by
    unfold splitComma
    rw [splitOnC_append hc, splitOnC_no_sep hdc]
  have hfmt : (match id.getLast? with | some c => [c] | none => ([] : Str)) =
      ['6'] := by rw [h6]
  rw [P0.parseSingleStr_of_split hts (by simp), hfmt]
  rw [if_neg (by decide), if_pos rfl, P0.parseHex_eq hlen hhex]

theorem P0.ext_line_p0 {id t1 t2 t3 t4 : Str} (h4 : id.getLast? = some '4')
    (hc : ',' ∉ id) (h1 : ',' ∉ t1) (h2 : ',' ∉ t2) (h3 : ',' ∉ t3)
    (ht4 : ',' ∉ t4) :
    P0.parseSingleStr (id ++ ',' :: (t1 ++ ',' :: (t2 ++ ',' :: (t3 ++ ',' :: t4))))
      = some (extRecord id t1 t2 t3 t4) := by
  have hts : splitComma (id ++ ',' :: (t1 ++ ',' :: (t2 ++ ',' :: (t3 ++ ',' :: t4))))
      = [id, t1, t2, t3, t4] := by
    unfold splitComma
    rw [splitOnC_append hc, splitOnC_append h1, splitOnC_append h2,
      splitOnC_append h3, splitOnC_no_sep ht4]
  have hfmt : (match id.getLast? with | some c => [c] | none => ([] : Str)) =
      ['4'] := by rw [h4]
  rw [P0.parseSingleStr_of_split hts (by simp), hfmt]
  rw [if_pos rfl, P0.parseExtended_eq]

theorem P0.def_line_p0 {a b : Str} (h6 : ¬a.getLast? = some '6')
    (h4 : ¬a.getLast? = some '4') (hc : ',' ∉ a) (hb : ',' ∉ b) :
    P0.parseSingleStr (a ++ ',' :: b) = some (defRecord a b) := by
  have hts : splitComma (a ++ ',' :: b) = [a, b] := by
    unfold splitComma
    rw [splitOnC_append hc, splitOnC_no_sep hb]
  have hfmt4 : ¬(match a.getLast? with | some c => [c] | none => ([] : Str)) =
      ['4'] := by
    cases hl : a.getLast? with
    | none => simp
    | some c =>
      simp only [List.cons.injEq, and_true]
      intro hcc
      exact h4 (by rw [hl, hcc])
  have hfmt6 : ¬(match a.getLast? with | some c => [c] | none => ([] : Str)) =
      ['6'] := by
    cases hl : a.getLast? with
    | none => simp
    | some c =>
      simp only [List.cons.injEq, and_true]
      intro hcc
      exact h6 (by rw [hl, hcc])
  rw [P0.parseSingleStr_of_split hts (by simp), if_neg hfmt4, if_neg hfmt6,
    P0.parseBasic_eq]

/-! ## Batch behaviour and failure cases -/

theorem mapM_loop_str {β : Type} (f : JSVal → Except Unit β) (g : Str → β)
    (hf : ∀ s, f (.str s) = .ok (g s)) :
    ∀ (l : List Str) (acc : List β),
      List.mapM.loop f (l.map .str) acc = .ok (acc.reverse ++ l.map g)
  | [], acc => by simp [List.mapM.loop, pure, Except.pure]
  | a :: r, acc => by
    have ih := mapM_loop_str f g hf r (g a :: acc)
    simp only [List.map_cons, List.mapM.loop, hf, bind, Except.bind, ih]
    simp

theorem UP.parse_batch (l : List Str) :
    UP.parse (.batch (l.map .str)) = .ok (l.map UP.parseSingleStr) := by
  unfold UP.parse
  simpa using mapM_loop_str UP.parseSingle UP.parseSingleStr (fun _ => rfl) l []

theorem P0.parse_batch_p0 (l : List Str) :
    P0.parse (.batch (l.map .str)) = .ok (l.map P0.parseSingleStr) := by
  unfold P0.parse
  simpa using mapM_loop_str P0.parseSingle P0.parseSingleStr (fun _ => rfl) l []

theorem UP.no_comma_none {s : Str} (h : ',' ∉ s) : UP.parseSingleStr s = none := by
  unfold UP.parseSingleStr
  rw [idxOfC_no h]

theorem P0.no_comma_none_p0 {s : Str} (h : ',' ∉ s) : P0.parseSingleStr s = none := by
  unfold P0.parseSingleStr P0.validateInputStr
  rw [show splitComma s = [s] from splitOnC_no_sep h]
  rw [if_pos (by simp)]

theorem UP.invalid_none {id data : Str} (hc : ',' ∉ id)
    (hval : UP.selectedValid id data = false) :
    UP.parseSingleStr (id ++ ',' :: data) = none := by
  rw [UP.parseSingleStr_split hc]
  unfold UP.selectedValid at hval
  split_ifs at hval ⊢ <;> simp_all

/-! ## Feeding normalized fields back into the normalizer -/

/-- A normalized numeric field fed back as a raw candidate: the normalizer
marks absence with `null` (the object literal assigns `null`, not
`undefined`), so an absent field feeds back as `null`; a present one is
its number. -/
def numBack : Option JSNum → RawVal
  | none => .jsNull
  | some j => .num j

/-- A normalized text field fed back as a raw candidate (absent fields of
a normalized record hold `null`). -/
def strBack : Option Str → RawVal
  | none => .jsNull
  | some s => .str s

/-! ## Claims -/

/-- Claim C1.  The spec says `parse` never raises and reports failure by a
null slot, for every input including non-strings.  The code's non-string
guard `(!typeof input) == 'string'` always evaluates to `false`, so a
non-string input (e.g. the number `42` or `null`) reaches
`input.indexOf(",")` (resp. `input.split(',')`) and throws a `TypeError`
in both implementations: the claim is the intent, the guard is a slip. -/
theorem c1_nonstring_input_throws :
    UP.parse (.single .nonstr) = .error () ∧
    P0.parse (.single .nonstr) = .error () :=
  ⟨rfl, rfl⟩

/-- Claim C2, counterexample.  In `part_000` the Extended handler is
invoked without any token-count validation: the line `"14,9"` (discriminant
`'4'`, payload of one token instead of four) yields a partial record
`{id: 14, dmcc: "9", mnc: null, ...}` instead of the whole-record absence
the claim requires. -/
theorem c2_counterexample :
    P0.parse (.single (.str ['1', '4', ',', '9'])) =
      .ok [some (⟨some (.val 14), some ['9'], none, none, none, none⟩ :
        UsageRecord)] := by
  show Except.ok [P0.parseSingleStr ['1', '4', ',', '9']] = _
  rw [show P0.parseSingleStr ['1', '4', ',', '9'] =
    some (⟨some (.val 14), some ['9'], none, none, none, none⟩ : UsageRecord) by
      decide]

/-- Claim C2, amended.  For every batch of strings both implementations
return exactly one slot per line in input order (so no line affects a
sibling); a line without a separator yields absence in both; and in
`usage_parser.js` a line whose discriminant-selected formatter's
`isValid` rejects the payload yields whole-record absence.  (In
`part_000` only the Hex handler shape-validates, see the counterexample.) -/
theorem c2_amended (l : List Str) :
    UP.parse (.batch (l.map .str)) = .ok (l.map UP.parseSingleStr) ∧
    P0.parse (.batch (l.map .str)) = .ok (l.map P0.parseSingleStr) ∧
    (∀ s ∈ l, ',' ∉ s → UP.parseSingleStr s = none ∧ P0.parseSingleStr s = none) ∧
    (∀ s ∈ l, ∀ id data : Str, s = id ++ ',' :: data → ',' ∉ id →
      UP.selectedValid id data = false → UP.parseSingleStr s = none) := by
  refine ⟨UP.parse_batch l, P0.parse_batch_p0 l, ?_, ?_⟩
  · exact fun s _ h => ⟨UP.no_comma_none h, P0.no_comma_none_p0 h⟩
  · rintro s _ id data rfl hc hval
    exact UP.invalid_none hc hval

/-- Claim C2, witness: a concrete two-line batch (a line with no comma and
a Hex-discriminant line whose payload fails the 24-hex-character check). -/
theorem c2_amended_witness :
    UP.parse (.batch [JSVal.str ['a', 'b'], JSVal.str ['1', '6', ',', 'z', 'z']]) =
      .ok ([['a', 'b'], ['1', '6', ',', 'z', 'z']].map UP.parseSingleStr) ∧
    UP.parseSingleStr ['a', 'b'] = none ∧
    P0.parseSingleStr ['a', 'b'] = none ∧
    UP.parseSingleStr ['1', '6', ',', 'z', 'z'] = none := by
  obtain ⟨h1, _, h3, h4⟩ := c2_amended [['a', 'b'], ['1', '6', ',', 'z', 'z']]
  refine ⟨h1, (h3 ['a', 'b'] (by simp) (by decide)).1,
    (h3 ['a', 'b'] (by simp) (by decide)).2, ?_⟩
  exact h4 ['1', '6', ',', 'z', 'z'] (by simp) ['1', '6'] ['z', 'z'] rfl
    (by decide) (by decide)

/-- Claim C3.  Every line whose ID token ends in `'6'` and whose payload is
exactly 24 characters of `[0-9a-f]` parses (in both implementations) to a
record with `mnc` the base-16 value of hex characters 0..4, `bytes_used`
of characters 4..8, `cellid` of characters 8..16, and `ip` the four base-10
octet values of the 2-nibble slices at 16:18, 18:20, 20:22, 22:24 joined
with `.` separators (the shape `hexRecord`). -/
theorem c3_hex_fields (id data : Str) (h6 : id.getLast? = some '6')
    (hc : ',' ∉ id) (hlen : data.length = 24)
    (hhex : ∀ c ∈ data, isHexLower c = true) :
    UP.parseSingleStr (id ++ ',' :: data) = some (hexRecord id data) ∧
    P0.parseSingleStr (id ++ ',' :: data) = some (hexRecord id data) :=
  ⟨UP.hex_line h6 hc hlen hhex, P0.hex_line_p0 h6 hc hlen hhex⟩

/-- Claim C3, witness: the spec's example line
`45546,deadbeef00000000cafe0102` decodes to
`mnc = 0xdead, bytes_used = 0xbeef, cellid = 0, ip = "202.254.1.2"`. -/
theorem c3_hex_fields_witness :
    UP.parseSingleStr (['4', '5', '5', '4', '6'] ++ ',' ::
        ['d', 'e', 'a', 'd', 'b', 'e', 'e', 'f', '0', '0', '0', '0', '0', '0',
         '0', '0', 'c', 'a', 'f', 'e', '0', '1', '0', '2']) =
      some (⟨some (.val 45546), none, some (.val 57005), some (.val 48879),
        some (.val 0),
        some ['2', '0', '2', '.', '2', '5', '4', '.', '1', '.', '2']⟩ :
        UsageRecord) := by
  rw [(c3_hex_fields ['4', '5', '5', '4', '6']
    ['d', 'e', 'a', 'd', 'b', 'e', 'e', 'f', '0', '0', '0', '0', '0', '0',
     '0', '0', 'c', 'a', 'f', 'e', '0', '1', '0', '2']
    (by decide) (by decide) (by decide) (by decide)).1]
  decide

/-- Claim C4.  On the same well-formed Hex lines, decoding is reversible:
re-encoding the decoded `mnc` (4 nibbles), `bytes_used` (4 nibbles),
`cellid` (8 nibbles) and the four IP octets (2 nibbles each, in order)
back to zero-padded lowercase hex reproduces the original payload. -/
theorem c4_hex_roundtrip (id data : Str) (h6 : id.getLast? = some '6')
    (hc : ',' ∉ id) (hlen : data.length = 24)
    (hhex : ∀ c ∈ data, isHexLower c = true) :
    (UP.parseSingleStr (id ++ ',' :: data) = some (hexRecord id data) ∧
     P0.parseSingleStr (id ++ ',' :: data) = some (hexRecord id data)) ∧
    natToHex 4 (hexValue (data.take 4)) ++
      (natToHex 4 (hexValue ((data.drop 4).take 4)) ++
      (natToHex 8 (hexValue ((data.drop 8).take 8)) ++
      (natToHex 2 (hexValue ((data.drop 16).take 2)) ++
      (natToHex 2 (hexValue ((data.drop 18).take 2)) ++
      (natToHex 2 (hexValue ((data.drop 20).take 2)) ++
      natToHex 2 (hexValue ((data.drop 22).take 2))))))) = data := by
  refine ⟨⟨UP.hex_line h6 hc hlen hhex, P0.hex_line_p0 h6 hc hlen hhex⟩, ?_⟩
  have r0 : natToHex 4 (hexValue (data.take 4)) = data.take 4 := by
    have := natToHex_hexValue (s := data.take 4)
      (fun c hc' => hhex c (List.take_subset _ _ hc'))
    rwa [show (data.take 4).length = 4 by simp [hlen]] at this
  have rs : ∀ off len : ℕ, off + len ≤ 24 →
      natToHex len (hexValue ((data.drop off).take len)) =
        (data.drop off).take len := by
    intro off len h
    have := natToHex_hexValue (s := (data.drop off).take len)
      (hexSlice_mem hhex off len)
    rwa [hexSlice_len hlen off len h] at this
  rw [r0, rs 4 4 (by omega), rs 8 8 (by omega), rs 16 2 (by omega),
    rs 18 2 (by omega), rs 20 2 (by omega), rs 22 2 (by omega)]
  have e22 : (data.drop 22).take 2 = data.drop 22 :=
    List.take_of_length_le (by simp [hlen])
  have step : ∀ m n k : ℕ, k = m + n →
      (data.drop m).take n ++ data.drop k = data.drop m := by
    intro m n k hk
    subst hk
    rw [← List.drop_drop]
    exact List.take_append_drop n (data.drop m)
  rw [e22, step 20 2 22 (by norm_num), step 18 2 20 (by norm_num),
    step 16 2 18 (by norm_num), step 8 8 16 (by norm_num),
    step 4 4 8 (by norm_num)]
  exact List.take_append_drop 4 data

/-- Claim C4, witness: the example line of C3, with the re-encoded
concatenation evaluated back to the original payload. -/
theorem c4_hex_roundtrip_witness :
    natToHex 4 (hexValue (['d', 'e', 'a', 'd', 'b', 'e', 'e', 'f', '0', '0',
        '0', '0', '0', '0', '0', '0', 'c', 'a', 'f', 'e', '0', '1', '0',
        '2'].take 4)) ++
      (natToHex 4 (hexValue ((['d', 'e', 'a', 'd', 'b', 'e', 'e', 'f', '0', '0',
        '0', '0', '0', '0', '0', '0', 'c', 'a', 'f', 'e', '0', '1', '0',
        '2'].drop 4).take 4)) ++
      (natToHex 8 (hexValue ((['d', 'e', 'a', 'd', 'b', 'e', 'e', 'f', '0', '0',
        '0', '0', '0', '0', '0', '0', 'c', 'a', 'f', 'e', '0', '1', '0',
        '2'].drop 8).take 8)) ++
      (natToHex 2 (hexValue ((['d', 'e', 'a', 'd', 'b', 'e', 'e', 'f', '0', '0',
        '0', '0', '0', '0', '0', '0', 'c', 'a', 'f', 'e', '0', '1', '0',
        '2'].drop 16).take 2)) ++
      (natToHex 2 (hexValue ((['d', 'e', 'a', 'd', 'b', 'e', 'e', 'f', '0', '0',
        '0', '0', '0', '0', '0', '0', 'c', 'a', 'f', 'e', '0', '1', '0',
        '2'].drop 18).take 2)) ++
      (natToHex 2 (hexValue ((['d', 'e', 'a', 'd', 'b', 'e', 'e', 'f', '0', '0',
        '0', '0', '0', '0', '0', '0', 'c', 'a', 'f', 'e', '0', '1', '0',
        '2'].drop 20).take 2)) ++
      natToHex 2 (hexValue ((['d', 'e', 'a', 'd', 'b', 'e', 'e', 'f', '0', '0',
        '0', '0', '0', '0', '0', '0', 'c', 'a', 'f', 'e', '0', '1', '0',
        '2'].drop 22).take 2))))))) =
      ['d', 'e', 'a', 'd', 'b', 'e', 'e', 'f', '0', '0', '0', '0', '0', '0',
       '0', '0', 'c', 'a', 'f', 'e', '0', '1', '0', '2'] :=
  (c4_hex_roundtrip ['1', '6']
    ['d', 'e', 'a', 'd', 'b', 'e', 'e', 'f', '0', '0', '0', '0', '0', '0',
     '0', '0', 'c', 'a', 'f', 'e', '0', '1', '0', '2']
    (by decide) (by decide) (by decide) (by decide)).2

/-- Claim C5.  Every well-formed Extended line
`id ++ "," ++ t1 ++ "," ++ t2 ++ "," ++ t3 ++ "," ++ t4` (ID ending in
`'4'`, exactly four comma-separated payload tokens) parses in both
implementations to the positional record: `dmcc` is the first token (kept
as text), `mnc`, `bytes_used`, `cellid` are the normalized second, third
and fourth tokens, and `ip` is absent. -/
theorem c5_extended_positional (id t1 t2 t3 t4 : Str)
    (h4 : id.getLast? = some '4') (hc : ',' ∉ id) (h1 : ',' ∉ t1)
    (h2 : ',' ∉ t2) (h3 : ',' ∉ t3) (ht4 : ',' ∉ t4) :
    UP.parseSingleStr (id ++ ',' :: (t1 ++ ',' :: (t2 ++ ',' :: (t3 ++ ',' :: t4))))
      = some (extRecord id t1 t2 t3 t4) ∧
    P0.parseSingleStr (id ++ ',' :: (t1 ++ ',' :: (t2 ++ ',' :: (t3 ++ ',' :: t4))))
      = some (extRecord id t1 t2 t3 t4) :=
  ⟨UP.ext_line h4 hc h1 h2 h3 ht4, P0.ext_line_p0 h4 hc h1 h2 h3 ht4⟩

/-- Claim C5, witness: the line `1234,op,33,44,55` maps positionally to
`dmcc = "op", mnc = 33, bytes_used = 44, cellid = 55` with no IP. -/
theorem c5_extended_positional_witness :
    UP.parseSingleStr (['1', '2', '3', '4'] ++ ',' :: (['o', 'p'] ++ ',' ::
        (['3', '3'] ++ ',' :: (['4', '4'] ++ ',' :: ['5', '5'])))) =
      some (⟨some (.val 1234), some ['o', 'p'], some (.val 33), some (.val 44),
        some (.val 55), none⟩ : UsageRecord) := by
  rw [(c5_extended_positional ['1', '2', '3', '4'] ['o', 'p'] ['3', '3']
    ['4', '4'] ['5', '5'] (by decide) (by decide) (by decide) (by decide)
    (by decide) (by decide)).1]
  decide

/-- Claim C6.  Every Default-format line `a ++ "," ++ b` with both tokens
nonempty digit strings and the ID's last digit neither `'4'` nor `'6'`
(so that the Default formatter is selected) parses in both implementations
to a record whose `id` and `bytes_used` are the numeric values of the two
tokens, with `mnc`, `dmcc`, `cellid`, `ip` all absent. -/
theorem c6_default_numeric (a b : Str) (hane : a ≠ []) (hbne : b ≠ [])
    (hda : ∀ c ∈ a, isDig c = true) (hdb : ∀ c ∈ b, isDig c = true)
    (h6 : ¬a.getLast? = some '6') (h4 : ¬a.getLast? = some '4') :
    UP.parseSingleStr (a ++ ',' :: b) =
      some (⟨some (.val (natVal a)), none, none, some (.val (natVal b)), none,
        none⟩ : UsageRecord) ∧
    P0.parseSingleStr (a ++ ',' :: b) =
      some (⟨some (.val (natVal a)), none, none, some (.val (natVal b)), none,
        none⟩ : UsageRecord) := by
  have hca : ',' ∉ a := fun hm => absurd (hda ',' hm) (by decide)
  have hcb : ',' ∉ b := fun hm => absurd (hdb ',' hm) (by decide)
  have hrec : defRecord a b = ⟨some (.val (natVal a)), none, none,
      some (.val (natVal b)), none, none⟩ := by
    unfold defRecord numNorm
    rw [strToNumber_digits hane hda, strToNumber_digits hbne hdb]
    simp
  constructor
  · rw [UP.def_line h6 h4 hca (by rw [strToNumber_digits hbne hdb]; simp), hrec]
  · rw [P0.def_line_p0 h6 h4 hca hcb, hrec]

/-- Claim C6, witness: the spec's example line `123,500`. -/
theorem c6_default_numeric_witness :
    UP.parseSingleStr (['1', '2', '3'] ++ ',' :: ['5', '0', '0']) =
      some (⟨some (.val 123), none, none, some (.val 500), none, none⟩ :
        UsageRecord) ∧
    P0.parseSingleStr (['1', '2', '3'] ++ ',' :: ['5', '0', '0']) =
      some (⟨some (.val 123), none, none, some (.val 500), none, none⟩ :
        UsageRecord) := by
  have h := c6_default_numeric ['1', '2', '3'] ['5', '0', '0'] (by decide)
    (by decide) (by decide) (by decide) (by decide) (by decide)
  rw [show ((natVal ['1', '2', '3'] : ℚ)) = 123 by decide,
    show ((natVal ['5', '0', '0'] : ℚ)) = 500 by decide] at h
  exact h

/-- Claim C7, counterexample.  The ambiguous empty string is NOT normalized
to absence: JavaScript has `isNaN('') === false` (the empty string coerces
to the number 0), so the normalizer emits `0` for it, where the claim
demands an absent field. -/
theorem c7_counterexample :
    (UP.formatOutput (.str []) .undefined .undefined .undefined .undefined none).id =
      some (.val 0) := by
  decide

/-- Claim C7, amended.  A numeric-field candidate is normalized to its
canonical value when it is a valid number (a nonempty digit string, or an
already-decoded non-`NaN` number) and to absence when it is not
(`undefined`, `NaN`, a non-numeric string) — except that the empty string
counts as the valid number 0 (JS `Number('') = 0`) and therefore yields
`0`, not absence.  Both implementations share the same normalizer. -/
theorem c7_amended (s : Str) (hne : s ≠ []) (hd : ∀ c ∈ s, isDig c = true)
    (q : ℚ) :
    (UP.formatOutput (.str s) .undefined .undefined .undefined .undefined none).id =
      some (.val (natVal s)) ∧
    (UP.formatOutput .undefined .undefined .undefined .undefined .undefined none).id = none ∧
    (UP.formatOutput (.num (.val q)) .undefined .undefined .undefined .undefined none).id =
      some (.val q) ∧
    (UP.formatOutput (.num .nan) .undefined .undefined .undefined .undefined none).id = none ∧
    (UP.formatOutput (.str ['x', '2']) .undefined .undefined .undefined .undefined none).id =
      none ∧
    (UP.formatOutput (.str []) .undefined .undefined .undefined .undefined none).id =
      some (.val 0) ∧
    P0.formatOutput = UP.formatOutput := by
  have hs := strToNumber_digits hne hd
  refine ⟨?_, by decide, ?_, by decide, by decide, by decide, rfl⟩
  · simp [UP.formatOutput, jsIsNaN, jsToNumber, hs]
  · simp [UP.formatOutput, jsIsNaN, jsToNumber]

/-- Claim C7, witness: digit string `"7"`, decoded number `5`, and the
empty string. -/
theorem c7_amended_witness :
    (UP.formatOutput (.str ['7']) .undefined .undefined .undefined .undefined none).id =
      some (.val 7) ∧
    (UP.formatOutput (.num (.val 5)) .undefined .undefined .undefined .undefined none).id =
      some (.val 5) ∧
    (UP.formatOutput (.str []) .undefined .undefined .undefined .undefined none).id =
      some (.val 0) := by
  obtain ⟨h1, _, h3, _, _, h6, _⟩ := c7_amended ['7'] (by decide) (by decide) 5
  refine ⟨?_, h3, h6⟩
  rw [h1]
  decide

/-- Claim C8, counterexample.  The IP regex is not anchored, so the
normalizer keeps `"0.0.0.256"` (the searcher finds the word-boundary
match `0.0.0.25` inside it) although it is not a dotted quad of four
octets in 0..255 — the claim's "if and only if" fails. -/
theorem c8_counterexample :
    (UP.formatOutput .undefined .undefined .undefined .undefined .undefined
        (some ['0', '.', '0', '.', '0', '.', '2', '5', '6'])).ip =
      some ['0', '.', '0', '.', '0', '.', '2', '5', '6'] ∧
    specDottedQuad ['0', '.', '0', '.', '0', '.', '2', '5', '6'] = false := by
  decide

/-- Claim C8, amended.  The `ip` candidate is kept iff the unanchored
regex finds a word-boundary octet-quad match somewhere in it; in
particular every exact dotted quad (four decimal octets 0..255) is kept,
`"255.255.255.255"` is kept, `"256.0.0.1"` and `"1.2.3"` are set to
absent, and the other five fields do not depend on the `ip` argument.
Keeping is however not limited to exact dotted quads (counterexample
`"0.0.0.256"`). Both implementations share the same normalizer. -/
theorem c8_amended (s : Str) (hs : specDottedQuad s = true)
    (id mnc bu dmcc cid : RawVal) (ip1 ip2 : Option Str) :
    (UP.formatOutput id mnc bu dmcc cid (some s)).ip = some s ∧
    (UP.formatOutput .undefined .undefined .undefined .undefined .undefined
        (some ['2', '5', '5', '.', '2', '5', '5', '.', '2', '5', '5', '.',
          '2', '5', '5'])).ip =
      some ['2', '5', '5', '.', '2', '5', '5', '.', '2', '5', '5', '.',
        '2', '5', '5'] ∧
    (UP.formatOutput .undefined .undefined .undefined .undefined .undefined
        (some ['2', '5', '6', '.', '0', '.', '0', '.', '1'])).ip = none ∧
    (UP.formatOutput .undefined .undefined .undefined .undefined .undefined
        (some ['1', '.', '2', '.', '3'])).ip = none ∧
    ((UP.formatOutput id mnc bu dmcc cid ip1).id =
        (UP.formatOutput id mnc bu dmcc cid ip2).id ∧
      (UP.formatOutput id mnc bu dmcc cid ip1).dmcc =
        (UP.formatOutput id mnc bu dmcc cid ip2).dmcc ∧
      (UP.formatOutput id mnc bu dmcc cid ip1).mnc =
        (UP.formatOutput id mnc bu dmcc cid ip2).mnc ∧
      (UP.formatOutput id mnc bu dmcc cid ip1).bytes_used =
        (UP.formatOutput id mnc bu dmcc cid ip2).bytes_used ∧
      (UP.formatOutput id mnc bu dmcc cid ip1).cellid =
        (UP.formatOutput id mnc bu dmcc cid ip2).cellid) ∧
    P0.formatOutput = UP.formatOutput := by
  refine ⟨?_, by decide, by decide, by decide, ⟨rfl, rfl, rfl, rfl, rfl⟩, rfl⟩
  simp [UP.formatOutput, specDQ_ipTest hs]

/-- Claim C8, witness: the dotted quad `"10.0.0.1"` is kept. -/
theorem c8_amended_witness :
    (UP.formatOutput .undefined .undefined .undefined .undefined .undefined
        (some ['1', '0', '.', '0', '.', '0', '.', '1'])).ip =
      some ['1', '0', '.', '0', '.', '0', '.', '1'] :=
  (c8_amended ['1', '0', '.', '0', '.', '0', '.', '1'] (by decide) .undefined .undefined
    .undefined .undefined .undefined none none).1

/-- Claim C9, counterexample.  Normalization is NOT idempotent: a
normalized record marks absent fields with `null`, and JavaScript has
`isNaN(null) === false` with `Number(null) === 0`, so feeding a normalized
record with an absent numeric field back through the normalizer turns that
field into `0`.  The record used here is the parser's own output for the
line `123,500`: re-normalizing it fills `mnc` and `cellid` with `0`. -/
theorem c9_counterexample :
    UP.parseSingleStr (['1', '2', '3'] ++ ',' :: ['5', '0', '0']) =
      some (⟨some (.val 123), none, none, some (.val 500), none, none⟩ :
        UsageRecord) ∧
    UP.formatOutput (numBack (some (.val 123))) (numBack none)
      (numBack (some (.val 500))) (strBack none) (numBack none) none =
      (⟨some (.val 123), none, some (.val 0), some (.val 500), some (.val 0),
        none⟩ : UsageRecord) ∧
    (⟨some (.val 123), none, some (.val 0), some (.val 500), some (.val 0),
        none⟩ : UsageRecord) ≠
      ⟨some (.val 123), none, none, some (.val 500), none, none⟩ := by
  decide

/-- Claim C9, amended.  Feeding an already-normalized record (numeric
fields integer-valued or absent, `dmcc` a string or absent, `ip` a valid
dotted quad or absent) back through the normalizer returns it unchanged
except that every absent numeric field becomes `0`: the absent marker is
`null`, and `isNaN(null)` is `false` with `Number(null) = 0`.  `dmcc` and
`ip` are preserved exactly, and idempotence does hold for records with no
absent numeric field.  Both implementations share the same normalizer. -/
theorem c9_amended (r : UsageRecord)
    (hid : r.id = none ∨ ∃ n : ℤ, r.id = some (.val (n : ℚ)))
    (hmnc : r.mnc = none ∨ ∃ n : ℤ, r.mnc = some (.val (n : ℚ)))
    (hbu : r.bytes_used = none ∨ ∃ n : ℤ, r.bytes_used = some (.val (n : ℚ)))
    (hcid : r.cellid = none ∨ ∃ n : ℤ, r.cellid = some (.val (n : ℚ)))
    (hip : r.ip = none ∨ ∃ s, r.ip = some s ∧ specDottedQuad s = true) :
    UP.formatOutput (numBack r.id) (numBack r.mnc) (numBack r.bytes_used)
      (strBack r.dmcc) (numBack r.cellid) r.ip =
      ⟨some (r.id.getD (.val 0)), r.dmcc, some (r.mnc.getD (.val 0)),
        some (r.bytes_used.getD (.val 0)), some (r.cellid.getD (.val 0)),
        r.ip⟩ ∧
    P0.formatOutput (numBack r.id) (numBack r.mnc) (numBack r.bytes_used)
      (strBack r.dmcc) (numBack r.cellid) r.ip =
      ⟨some (r.id.getD (.val 0)), r.dmcc, some (r.mnc.getD (.val 0)),
        some (r.bytes_used.getD (.val 0)), some (r.cellid.getD (.val 0)),
        r.ip⟩ ∧
    (r.id ≠ none → r.mnc ≠ none → r.bytes_used ≠ none → r.cellid ≠ none →
      UP.formatOutput (numBack r.id) (numBack r.mnc) (numBack r.bytes_used)
        (strBack r.dmcc) (numBack r.cellid) r.ip = r) := by
  obtain ⟨id, dmcc, mnc, bu, cid, ip⟩ := r
  dsimp only at hid hmnc hbu hcid hip ⊢
  have hup : UP.formatOutput (numBack id) (numBack mnc) (numBack bu)
      (strBack dmcc) (numBack cid) ip =
      ⟨some (id.getD (.val 0)), dmcc, some (mnc.getD (.val 0)),
        some (bu.getD (.val 0)), some (cid.getD (.val 0)), ip⟩ := by
    unfold UP.formatOutput
    simp only [UsageRecord.mk.injEq]
    refine ⟨?_, ?_, ?_, ?_, ?_, ?_⟩
    · rcases hid with rfl | ⟨n, rfl⟩ <;> simp [numBack, jsIsNaN, jsToNumber]
    · cases dmcc <;> simp [strBack]
    · rcases hmnc with rfl | ⟨n, rfl⟩ <;> simp [numBack, jsIsNaN, jsToNumber]
    · rcases hbu with rfl | ⟨n, rfl⟩ <;> simp [numBack, jsIsNaN, jsToNumber]
    · rcases hcid with rfl | ⟨n, rfl⟩ <;> simp [numBack, jsIsNaN, jsToNumber]
    · rcases hip with rfl | ⟨s, rfl, hs⟩
      · simp
      · simp [specDQ_ipTest hs]
  refine ⟨hup, by rw [show P0.formatOutput = UP.formatOutput from rfl]; exact hup,
    ?_⟩
  intro h1 h2 h3 h4
  rw [hup]
  rcases hid with rfl | ⟨n, rfl⟩
  · exact absurd rfl h1
  rcases hmnc with rfl | ⟨m, rfl⟩
  · exact absurd rfl h2
  rcases hbu with rfl | ⟨k, rfl⟩
  · exact absurd rfl h3
  rcases hcid with rfl | ⟨l, rfl⟩
  · exact absurd rfl h4
  simp

/-- Claim C9, witness: a concrete normalized record with absent `mnc` and
`cellid` comes back with those two fields filled with `0` and all other
fields unchanged. -/
theorem c9_amended_witness :
    UP.formatOutput (numBack (some (.val 5))) (numBack none)
      (numBack (some (.val 7))) (strBack (some ['o', 'p'])) (numBack none)
      (some ['1', '.', '2', '.', '3', '.', '4']) =
      (⟨some (.val 5), some ['o', 'p'], some (.val 0), some (.val 7),
        some (.val 0), some ['1', '.', '2', '.', '3', '.', '4']⟩ :
        UsageRecord) := by
  have h := (c9_amended
    ⟨some (.val 5), some ['o', 'p'], none, some (.val 7), none,
      some ['1', '.', '2', '.', '3', '.', '4']⟩
    (Or.inr ⟨5, by decide⟩) (Or.inl rfl) (Or.inr ⟨7, by decide⟩) (Or.inl rfl)
    (Or.inr ⟨['1', '.', '2', '.', '3', '.', '4'], rfl, by decide⟩)).1
  simpa using h

/-- Claim C10.  The two implementations agree on every well-formed line of
each of the three formats: Default (any ID token whose last character is
neither `'6'` nor `'4'`, with a single numeric payload token), Extended
(ID ending in `'4'`, exactly four comma-free payload tokens), and Hex
(ID ending in `'6'`, payload of 24 lowercase hex characters). -/
theorem c10_equiv :
    (∀ a b : Str, ',' ∉ a → ',' ∉ b → ¬a.getLast? = some '6' →
      ¬a.getLast? = some '4' → ¬strToNumber b = .nan →
      UP.parseSingleStr (a ++ ',' :: b) = P0.parseSingleStr (a ++ ',' :: b)) ∧
    (∀ id t1 t2 t3 t4 : Str, id.getLast? = some '4' → ',' ∉ id → ',' ∉ t1 →
      ',' ∉ t2 → ',' ∉ t3 → ',' ∉ t4 →
      UP.parseSingleStr
          (id ++ ',' :: (t1 ++ ',' :: (t2 ++ ',' :: (t3 ++ ',' :: t4)))) =
        P0.parseSingleStr
          (id ++ ',' :: (t1 ++ ',' :: (t2 ++ ',' :: (t3 ++ ',' :: t4))))) ∧
    (∀ id data : Str, id.getLast? = some '6' → ',' ∉ id → data.length = 24 →
      (∀ c ∈ data, isHexLower c = true) →
      UP.parseSingleStr (id ++ ',' :: data) =
        P0.parseSingleStr (id ++ ',' :: data)) := by
  refine ⟨?_, ?_, ?_⟩
  · intro a b hca hcb h6 h4 hb
    rw [UP.def_line h6 h4 hca hb, P0.def_line_p0 h6 h4 hca hcb]
  · intro id t1 t2 t3 t4 h4 hc h1 h2 h3 ht4
    rw [UP.ext_line h4 hc h1 h2 h3 ht4, P0.ext_line_p0 h4 hc h1 h2 h3 ht4]
  · intro id data h6 hc hlen hhex
    rw [UP.hex_line h6 hc hlen hhex, P0.hex_line_p0 h6 hc hlen hhex]

/-- Claim C10, witness: one concrete well-formed line of each format; the
Default line `ab,1.5` has a non-digit ID and a fractional numeric payload
token. -/
theorem c10_equiv_witness :
    UP.parseSingleStr (['a', 'b'] ++ ',' :: ['1', '.', '5']) =
      P0.parseSingleStr (['a', 'b'] ++ ',' :: ['1', '.', '5']) ∧
    UP.parseSingleStr (['1', '2', '3', '4'] ++ ',' :: (['o', 'p'] ++ ',' ::
        (['3', '3'] ++ ',' :: (['4', '4'] ++ ',' :: ['5', '5'])))) =
      P0.parseSingleStr (['1', '2', '3', '4'] ++ ',' :: (['o', 'p'] ++ ',' ::
        (['3', '3'] ++ ',' :: (['4', '4'] ++ ',' :: ['5', '5'])))) ∧
    UP.parseSingleStr (['1', '6'] ++ ',' ::
        ['d', 'e', 'a', 'd', 'b', 'e', 'e', 'f', '0', '0', '0', '0', '0', '0',
         '0', '0', 'c', 'a', 'f', 'e', '0', '1', '0', '2']) =
      P0.parseSingleStr (['1', '6'] ++ ',' ::
        ['d', 'e', 'a', 'd', 'b', 'e', 'e', 'f', '0', '0', '0', '0', '0', '0',
         '0', '0', 'c', 'a', 'f', 'e', '0', '1', '0', '2']) := by
  obtain ⟨hd, he, hh⟩ := c10_equiv
  exact ⟨hd ['a', 'b'] ['1', '.', '5'] (by decide) (by decide) (by decide)
      (by decide) (by decide),
    he ['1', '2', '3', '4'] ['o', 'p'] ['3', '3'] ['4', '4'] ['5', '5']
      (by decide) (by decide) (by decide) (by decide) (by decide) (by decide),
    hh ['1', '6']
      ['d', 'e', 'a', 'd', 'b', 'e', 'e', 'f', '0', '0', '0', '0', '0', '0',
       '0', '0', 'c', 'a', 'f', 'e', '0', '1', '0', '2']
      (by decide) (by decide) (by decide) (by decide)⟩
